import Mathlib

/-!
Verification of the native audio playback engine (src/src-tauri/src/audio.rs).

Shallow embedding: `f32`/`f64` samples, coefficients, volumes and seconds are
modelled as exact rationals `ℚ`; transcendental operations (`sin`, `cos`,
`10^x`, the constant `π`) used only inside coefficient construction are
abstracted as a record of rational-valued functions `DspOps`, so every
definition stays computable.  Wall-clock `Instant`s are rational timestamps.
The rodio `Sink` is modelled by its observable flags (paused, queue empty,
volume); file open / decode outcomes are an explicit environment parameter.
-/

-- ===========================================================================
-- DSP: equalizer data model (audio.rs lines 24-84)
-- ===========================================================================

structure EqBand where
  frequency : ℚ
  gain : ℚ
deriving DecidableEq, Repr

structure EqSettings where
  enabled : Bool
  bands : List EqBand
deriving DecidableEq, Repr

/-- `impl Default for EqSettings` (audio.rs 36-84): disabled, ten zero-gain
bands at 31..16000 Hz. -/
def EqSettings.default : EqSettings :=
  { enabled := false
    bands := [⟨31, 0⟩, ⟨62, 0⟩, ⟨125, 0⟩, ⟨250, 0⟩, ⟨500, 0⟩,
              ⟨1000, 0⟩, ⟨2000, 0⟩, ⟨4000, 0⟩, ⟨8000, 0⟩, ⟨16000, 0⟩] }

/-- Abstracted transcendental operations (`f32::sin`, `f32::cos`,
`10.0f32.powf`, `std::f32::consts::PI`), rational-valued. -/
structure DspOps where
  sin : ℚ → ℚ
  cos : ℚ → ℚ
  exp10 : ℚ → ℚ
  pi : ℚ

-- ===========================================================================
-- BiquadFilter (audio.rs lines 86-136)
-- ===========================================================================

structure BiquadFilter where
  b0 : ℚ
  b1 : ℚ
  b2 : ℚ
  a1 : ℚ
  a2 : ℚ
  x1 : ℚ
  x2 : ℚ
  y1 : ℚ
  y2 : ℚ
deriving DecidableEq, Repr

/-- `BiquadFilter::new_peaking` (audio.rs 101-124). -/
def BiquadFilter.new_peaking (ops : DspOps) (freq gain_db : ℚ) (sample_rate : ℕ)
    (q : ℚ) : BiquadFilter :=
  let a := ops.exp10 (gain_db / 40)
  let w0 := 2 * ops.pi * freq / (sample_rate : ℚ)
  let alpha := ops.sin w0 / (2 * q)
  let b0 := 1 + alpha * a
  let b1 := -2 * ops.cos w0
  let b2 := 1 - alpha * a
  let a0 := 1 + alpha / a
  let a1 := -2 * ops.cos w0
  let a2 := 1 - alpha / a
  { b0 := b0 / a0, b1 := b1 / a0, b2 := b2 / a0, a1 := a1 / a0, a2 := a2 / a0,
    x1 := 0, x2 := 0, y1 := 0, y2 := 0 }

/-- `BiquadFilter::process` (audio.rs 126-135), with the `&mut self` state
update made explicit: returns the output sample and the shifted filter. -/
def BiquadFilter.process (f : BiquadFilter) (sample : ℚ) : ℚ × BiquadFilter :=
  let out := f.b0 * sample + f.b1 * f.x1 + f.b2 * f.x2
    - f.a1 * f.y1 - f.a2 * f.y2
  (out, { f with x2 := f.x1, x1 := sample, y2 := f.y1, y1 := out })

-- ===========================================================================
-- EqSource (audio.rs lines 138-208)
-- ===========================================================================

structure EqSource where
  sample_rate : ℕ
  channels : ℕ
  filter_states : List (List BiquadFilter)
  current_channel : ℕ
deriving DecidableEq, Repr

/-- The `base_filters` vector built in `EqSource::new` (audio.rs 153-165):
when enabled, one peaking filter (Q = 1.41) per band with non-zero gain. -/
def baseFilters (ops : DspOps) (sample_rate : ℕ) (settings : EqSettings) :
    List BiquadFilter :=
  if settings.enabled then
    (settings.bands.filter (fun b => b.gain ≠ 0)).map
      (fun b => BiquadFilter.new_peaking ops b.frequency b.gain sample_rate (141 / 100))
  else []

/-- `EqSource::new` (audio.rs 148-179): one copy of `base_filters` per
channel, rotating cursor at 0. -/
def EqSource.new (ops : DspOps) (sample_rate channels : ℕ)
    (settings : EqSettings) : EqSource :=
  { sample_rate := sample_rate
    channels := channels
    filter_states := List.replicate channels (baseFilters ops sample_rate settings)
    current_channel := 0 }

/-- Runtime failures of `EqSource::next` (Rust panics): out-of-bounds chain
indexing at `filter_states[current_channel]`, and `% 0` on the cursor update. -/
inductive Fault where
  | idxOOB
  | remZero
deriving DecidableEq, Repr

/-- The `for filter in channel_filters` loop of `next` (audio.rs 187-189):
thread one sample through the chain, returning output and updated chain. -/
def processChain : List BiquadFilter → ℚ → ℚ × List BiquadFilter
  | [], x => (x, [])
  | f :: fs, x =>
    let p := f.process x
    let r := processChain fs p.1
    (r.1, p.2 :: r.2)

/-- One `next()` call (audio.rs 184-192) given one input sample, in the
source's evaluation order: chain indexing first, then the filter loop, then
the cursor update `(current_channel + 1) % channels`. -/
def EqSource.step (s : EqSource) (x : ℚ) : Except Fault (ℚ × EqSource) :=
  match s.filter_states[s.current_channel]? with
  | none => .error .idxOOB
  | some chain =>
    let p := processChain chain x
    if s.channels = 0 then .error .remZero
    else .ok (p.1,
      { s with
        filter_states := s.filter_states.set s.current_channel p.2
        current_channel := (s.current_channel + 1) % s.channels })

/-- Drive `next()` over a whole (finite) input stream, collecting the output
samples; a panic aborts with the fault. -/
def eqRun (s : EqSource) : List ℚ → Except Fault (List ℚ)
  | [] => .ok []
  | x :: rest =>
    match s.step x with
    | .error e => .error e
    | .ok (y, s') =>
      match eqRun s' rest with
      | .error e => .error e
      | .ok ys => .ok (y :: ys)

/-- The channel index each consumed sample is routed to (a truncated trace on
panic). -/
def eqTrace (s : EqSource) : List ℚ → List ℕ
  | [] => []
  | x :: rest =>
    match s.step x with
    | .error _ => []
    | .ok (_, s') => s.current_channel :: eqTrace s' rest

/-- The structural invariant of a well-formed pipeline: one chain per channel
and the cursor in range. -/
def EqSource.inv (s : EqSource) : Prop :=
  s.filter_states.length = s.channels ∧ s.current_channel < s.channels

-- ===========================================================================
-- Player state model (audio.rs lines 214-289)
-- ===========================================================================

/-- Observable model of the rodio `Sink`: whether it is paused, whether its
queue is empty, and its volume. -/
structure SinkM where
  paused : Bool
  queueEmpty : Bool
  svolume : ℚ
deriving DecidableEq, Repr

/-- `Sink::try_new` result: a fresh sink is not paused, has an empty queue,
and volume 1. -/
def SinkM.fresh : SinkM := { paused := false, queueEmpty := true, svolume := 1 }

/-- `PlaybackState` (audio.rs 214-223). -/
structure PlaybackState where
  is_playing : Bool
  position : ℚ
  duration : ℚ
  volume : ℚ
  current_path : String
  eq_settings : EqSettings
  is_initialized : Bool
deriving DecidableEq, Repr

/-- `impl Default for PlaybackState` (audio.rs 225-237). -/
def PlaybackState.default : PlaybackState :=
  { is_playing := false
    position := 0
    duration := 0
    volume := 7 / 10
    current_path := ""
    eq_settings := EqSettings.default
    is_initialized := false }

/-- `AudioPlayer` internal state (audio.rs 257-267), with `Instant`s as
rational timestamps and the output-stream handle elided. -/
structure AudioPlayer where
  sink : SinkM
  track_duration : Option ℚ
  playback_started_at : Option ℚ
  position_at_pause : ℚ
  current_path : String
  volume : ℚ
  eq_settings : EqSettings
deriving DecidableEq, Repr

/-- The state an `AudioPlayer::new()` (audio.rs 270-289) success yields. -/
def AudioPlayer.new : AudioPlayer :=
  { sink := SinkM.fresh
    track_duration := none
    playback_started_at := none
    position_at_pause := 0
    current_path := ""
    volume := 7 / 10
    eq_settings := EqSettings.default }

/-- Outcome of `File::open` followed by `Decoder::new` on a path: open error,
decode error, or success carrying the decoder's optional total duration. -/
inductive FileOutcome where
  | openErr
  | decodeErr
  | ok (total_duration : Option ℚ)
deriving DecidableEq, Repr

/-- `f64::clamp` / `f32::clamp` (`lo ≤ hi` assumed, as at every call site). -/
def clampQ (x lo hi : ℚ) : ℚ := if x < lo then lo else if x > hi then hi else x

-- ===========================================================================
-- Engine operations (audio.rs lines 291-399)
-- ===========================================================================

/-- `AudioPlayer::play_file` (audio.rs 291-313).  `fsys` is the file-system /
decoder environment; `now` the current instant.  Returns the `Result` and the
player state after the call (the source mutates `self` even on the failure
paths: the old sink is already stopped and replaced). -/
def play_file (fsys : String → FileOutcome) (now : ℚ) (p : AudioPlayer)
    (path : String) : Except String Unit × AudioPlayer :=
  let p1 := { p with sink := SinkM.fresh }
  match fsys path with
  | .openErr => (.error "Failed to open file", p1)
  | .decodeErr => (.error "Failed to decode audio", p1)
  | .ok dur =>
    (.ok (),
      { p1 with
        track_duration := dur
        sink := { paused := false, queueEmpty := false, svolume := p.volume }
        current_path := path
        playback_started_at := some now
        position_at_pause := 0 })

/-- `AudioPlayer::set_volume` (audio.rs 335-339). -/
def set_volume (p : AudioPlayer) (v : ℚ) : AudioPlayer :=
  let v := clampQ v 0 1
  { p with sink := { p.sink with svolume := v }, volume := v }

/-- The `was_playing` test inside `seek` (audio.rs 349). -/
def wasPlaying (p : AudioPlayer) : Bool :=
  p.playback_started_at.isSome || !p.sink.paused

/-- `AudioPlayer::seek` (audio.rs 341-376): guards, then discard the queue,
re-open and re-decode the current path, skip to `duration × clamp(f,0,1)`,
and restore the prior playing/paused mode. -/
def seek (fsys : String → FileOutcome) (now : ℚ) (p : AudioPlayer)
    (position_fraction : ℚ) : Except String Unit × AudioPlayer :=
  if p.current_path = "" then (.error "No track loaded", p)
  else
    match p.track_duration with
    | none => (.error "Track duration unknown", p)
    | some duration =>
      let seek_to := duration * clampQ position_fraction 0 1
      let was_playing := wasPlaying p
      let p1 := { p with sink := SinkM.fresh }
      match fsys p.current_path with
      | .openErr => (.error "Failed to open file", p1)
      | .decodeErr => (.error "Failed to decode audio", p1)
      | .ok _ =>
        let sink2 : SinkM := { paused := false, queueEmpty := false, svolume := p.volume }
        if was_playing then
          (.ok (),
            { p1 with
              sink := sink2
              position_at_pause := seek_to
              playback_started_at := some now })
        else
          (.ok (),
            { p1 with
              sink := { sink2 with paused := true }
              position_at_pause := seek_to
              playback_started_at := none })

/-- `AudioPlayer::update_state` (audio.rs 379-399): refresh the published
snapshot from the engine state at instant `now`. -/
def update_state (now : ℚ) (p : AudioPlayer) (st : PlaybackState) :
    PlaybackState :=
  let duration := p.track_duration.getD 0
  let is_playing0 :=
    p.playback_started_at.isSome && !p.sink.paused && !p.sink.queueEmpty
  let position :=
    match p.playback_started_at with
    | some started_at =>
      let pos := p.position_at_pause + (now - started_at)
      if duration > 0 ∧ pos > duration then duration else pos
    | none => p.position_at_pause
  { st with
    is_playing :=
      if p.sink.queueEmpty && !(p.current_path = "") then false else is_playing0
    duration := duration
    current_path := p.current_path
    volume := p.volume
    eq_settings := p.eq_settings
    position := position }

/-- `audio_is_finished` (audio.rs 582-586) on a snapshot. -/
def audio_is_finished (s : PlaybackState) : Bool :=
  !s.is_playing && !(s.current_path = "") && decide (s.position ≥ s.duration - 1 / 10)

-- ===========================================================================
-- Concrete fixtures used by witnesses and counterexamples
-- ===========================================================================

/-- A concrete instantiation of the abstracted transcendental operations. -/
def opsId : DspOps := { sin := id, cos := id, exp10 := id, pi := 0 }

/-- A player mid-segment: track "t.mp3" of duration 10 s, segment started at
instant 2 with 3 s already accumulated, sink live. -/
def pSeg : AudioPlayer :=
  { sink := { paused := false, queueEmpty := false, svolume := 1 }
    track_duration := some 10
    playback_started_at := some 2
    position_at_pause := 3
    current_path := "t.mp3"
    volume := 1
    eq_settings := EqSettings.default }

/-- An environment in which every file open fails. -/
def fsysFail : String → FileOutcome := fun _ => FileOutcome.openErr

/-- An environment in which every file decodes with total duration 10 s. -/
def fsysOk10 : String → FileOutcome := fun _ => FileOutcome.ok (some 10)

-- ===========================================================================
-- C2: Biquad correctness
-- ===========================================================================

/-- C2: with Q = 1.41, `new_peaking` stores exactly the RBJ peaking
coefficients `A = 10^(gain/40)`, `ω0 = 2π·f/sampleRate`, `α = sin(ω0)/(2Q)`,
`b0 = 1+αA`, `b1 = b2' = −2cos(ω0)`-style set, each divided by
`a0 = 1+α/A`, with zeroed recurrence state; and `process` applies the
difference equation and shifts the state. -/
theorem biquad_rbj_design (ops : DspOps) (freq gain_db : ℚ) (sample_rate : ℕ) :
    (BiquadFilter.new_peaking ops freq gain_db sample_rate (141 / 100) =
      (let a := ops.exp10 (gain_db / 40)
       let w0 := 2 * ops.pi * freq / (sample_rate : ℚ)
       let alpha := ops.sin w0 / (2 * (141 / 100))
       let a0 := 1 + alpha / a
       { b0 := (1 + alpha * a) / a0
         b1 := (-2 * ops.cos w0) / a0
         b2 := (1 - alpha * a) / a0
         a1 := (-2 * ops.cos w0) / a0
         a2 := (1 - alpha / a) / a0
         x1 := 0, x2 := 0, y1 := 0, y2 := 0 }))
    ∧ ∀ (f : BiquadFilter) (x : ℚ),
        (f.process x).1 =
          f.b0 * x + f.b1 * f.x1 + f.b2 * f.x2 - f.a1 * f.y1 - f.a2 * f.y2
        ∧ (f.process x).2 =
          { b0 := f.b0, b1 := f.b1, b2 := f.b2, a1 := f.a1, a2 := f.a2
            x2 := f.x1, x1 := x, y2 := f.y1, y1 := (f.process x).1 } :=
  ⟨rfl, fun _ _ => ⟨rfl, rfl⟩⟩

-- ===========================================================================
-- C7: is_finished definition
-- ===========================================================================

/-- C7: `audio_is_finished` holds on a snapshot iff it is not playing, a path
is loaded, and `position ≥ duration − 0.1`. -/
theorem is_finished_iff (s : PlaybackState) :
    audio_is_finished s = true ↔
      s.is_playing = false ∧ s.current_path ≠ "" ∧
        s.position ≥ s.duration - 1 / 10 := by
  simp [audio_is_finished, and_assoc]

-- ===========================================================================
-- C8: Volume clamping
-- ===========================================================================

/-- C8: `set_volume` stores `clamp(v,0,1)` as the engine volume and applies
the same clamped value to the sink; in particular `-1 ↦ 0` and `5 ↦ 1`. -/
theorem set_volume_clamps (p : AudioPlayer) (v : ℚ) :
    (set_volume p v).volume = clampQ v 0 1
    ∧ (set_volume p v).sink.svolume = clampQ v 0 1
    ∧ (set_volume p (-1)).volume = 0
    ∧ (set_volume p 5).volume = 1 := by
  refine ⟨rfl, rfl, ?_, ?_⟩ <;> norm_num [set_volume, clampQ]

-- ===========================================================================
-- C10: Initial state defaults
-- ===========================================================================

/-- C10: the default snapshot is not playing, at position 0, duration 0,
volume 0.7, empty path, default EQ (disabled, ten zero-gain bands at
31–16000 Hz), uninitialized; and a freshly created engine has volume 0.7, no
track, no segment, accumulated position 0. -/
theorem initial_state_defaults :
    PlaybackState.default.is_playing = false
    ∧ PlaybackState.default.position = 0
    ∧ PlaybackState.default.duration = 0
    ∧ PlaybackState.default.volume = 7 / 10
    ∧ PlaybackState.default.current_path = ""
    ∧ PlaybackState.default.eq_settings = EqSettings.default
    ∧ PlaybackState.default.is_initialized = false
    ∧ EqSettings.default.enabled = false
    ∧ EqSettings.default.bands =
        [⟨31, 0⟩, ⟨62, 0⟩, ⟨125, 0⟩, ⟨250, 0⟩, ⟨500, 0⟩,
         ⟨1000, 0⟩, ⟨2000, 0⟩, ⟨4000, 0⟩, ⟨8000, 0⟩, ⟨16000, 0⟩]
    ∧ (∀ b ∈ EqSettings.default.bands, b.gain = 0)
    ∧ EqSettings.default.bands.length = 10
    ∧ AudioPlayer.new.volume = 7 / 10
    ∧ AudioPlayer.new.current_path = ""
    ∧ AudioPlayer.new.track_duration = none
    ∧ AudioPlayer.new.playback_started_at = none
    ∧ AudioPlayer.new.position_at_pause = 0
    ∧ AudioPlayer.new.eq_settings = EqSettings.default := by
  refine ⟨rfl, rfl, rfl, rfl, rfl, rfl, rfl, rfl, rfl, ?_, rfl, rfl, rfl, rfl,
    rfl, rfl, rfl⟩
  decide

-- ===========================================================================
-- C1: Snapshot position/is_playing computation
-- ===========================================================================

/-- C1: `update_state` publishes `position = accumulated + (now − start)`
when a segment is active, clamped to the duration when the duration is known
(> 0) and exceeded, and `position = accumulated` otherwise; `is_playing` is
true iff a segment is active, the sink is not paused and the sink is
non-empty, and is forced false whenever the sink is empty with a path
loaded. -/
theorem update_state_spec (p : AudioPlayer) (now : ℚ) (st : PlaybackState) :
    (∀ t, p.playback_started_at = some t →
      (update_state now p st).position =
        (if 0 < p.track_duration.getD 0 ∧
            p.track_duration.getD 0 < p.position_at_pause + (now - t)
         then p.track_duration.getD 0
         else p.position_at_pause + (now - t)))
    ∧ (p.playback_started_at = none →
        (update_state now p st).position = p.position_at_pause)
    ∧ (update_state now p st).is_playing =
        (p.playback_started_at.isSome && !p.sink.paused && !p.sink.queueEmpty)
    ∧ (p.sink.queueEmpty = true → p.current_path ≠ "" →
        (update_state now p st).is_playing = false) := by
  refine ⟨?_, ?_, ?_, ?_⟩
  · intro t ht
    simp [update_state, ht, gt_iff_lt]
  · intro h
    simp [update_state, h]
  · by_cases hq : p.sink.queueEmpty <;> by_cases hp : p.current_path = "" <;>
      simp [update_state, hq, hp]
  · intro hq hp
    simp [update_state, hq, hp]

/-- Witness for `update_state_spec` at a concrete mid-segment player. -/
theorem update_state_spec_witness :
    (update_state 5 pSeg PlaybackState.default).position = 6
    ∧ (update_state 5 pSeg PlaybackState.default).is_playing = true := by
  have h := update_state_spec pSeg 5 PlaybackState.default
  constructor
  · rw [h.1 2 rfl]
    norm_num [pSeg]
  · rw [h.2.2.1]
    rfl

-- ===========================================================================
-- C3: Seek contract
-- ===========================================================================

/-- C3: with a non-empty loaded path and a known duration (and the path still
opening/decoding), `seek f` succeeds, sets the accumulated position to
`clamp(f,0,1) × duration`, and preserves the prior playing/paused mode
(playing resumes with `segment_start = now`; paused stays paused with no
active segment); an empty path fails with "No track loaded" and an unknown
duration with "Track duration unknown". -/
theorem seek_spec (fsys : String → FileOutcome) (now : ℚ) (p : AudioPlayer)
    (f : ℚ) :
    (p.current_path = "" →
      seek fsys now p f = (.error "No track loaded", p))
    ∧ (p.current_path ≠ "" → p.track_duration = none →
      seek fsys now p f = (.error "Track duration unknown", p))
    ∧ (∀ d dur, p.current_path ≠ "" → p.track_duration = some d →
        fsys p.current_path = .ok dur →
        (seek fsys now p f).1 = .ok ()
        ∧ ((seek fsys now p f).2).position_at_pause = clampQ f 0 1 * d
        ∧ (wasPlaying p = true →
            ((seek fsys now p f).2).playback_started_at = some now
            ∧ ((seek fsys now p f).2).sink.paused = false)
        ∧ (wasPlaying p = false →
            ((seek fsys now p f).2).playback_started_at = none
            ∧ ((seek fsys now p f).2).sink.paused = true)) := by
  refine ⟨?_, ?_, ?_⟩
  · intro h
    simp [seek, h]
  · intro h1 h2
    simp [seek, h1, h2]
  · intro d dur h1 h2 h3
    by_cases hw : wasPlaying p <;>
      simp [seek, h1, h2, h3, hw, mul_comm]

/-- Witness for `seek_spec`: seek to the midpoint of the 10-second track. -/
theorem seek_spec_witness :
    (seek fsysOk10 7 pSeg (1 / 2)).1 = .ok ()
    ∧ ((seek fsysOk10 7 pSeg (1 / 2)).2).position_at_pause = 5
    ∧ ((seek fsysOk10 7 pSeg (1 / 2)).2).playback_started_at = some 7 := by
  have h := (seek_spec fsysOk10 7 pSeg (1 / 2)).2.2 10 (some 10)
    (by decide) rfl rfl
  refine ⟨h.1, ?_, (h.2.2.1 rfl).1⟩
  rw [h.2.1]
  norm_num [clampQ]

-- ===========================================================================
-- C4: Play failure atomicity (corrected)
-- ===========================================================================

/-- C4 counterexample: a failed `play_file` does *not* leave the engine with
no track loaded — starting mid-playback of "t.mp3", a failing
`play_file "new.mp3"` returns the open error but retains the stale
`current_path = "t.mp3"` and the active playback segment marker. -/
theorem play_file_retains_stale_state :
    (play_file fsysFail 9 pSeg "new.mp3").1 = .error "Failed to open file"
    ∧ ((play_file fsysFail 9 pSeg "new.mp3").2).current_path = "t.mp3"
    ∧ ((play_file fsysFail 9 pSeg "new.mp3").2).current_path ≠ ""
    ∧ ((play_file fsysFail 9 pSeg "new.mp3").2).playback_started_at = some 2 := by
  refine ⟨rfl, rfl, ?_, rfl⟩
  decide

/-- C4 amended: if `play_file` fails with a file open or decode error, it
returns that error to its direct caller and replaces the sink with a fresh
empty one (so nothing is queued), but every other engine field —
`current_path`, `track_duration`, `playback_started_at`,
`position_at_pause`, volume and EQ settings — keeps its pre-call value. -/
theorem play_file_failure_spec (fsys : String → FileOutcome) (now : ℚ)
    (p : AudioPlayer) (path : String)
    (h : fsys path = .openErr ∨ fsys path = .decodeErr) :
    (∃ e, (play_file fsys now p path).1 = .error e)
    ∧ (play_file fsys now p path).2 = { p with sink := SinkM.fresh } := by
  rcases h with h | h <;> simp [play_file, h]

/-- Witness for `play_file_failure_spec` in the all-opens-fail environment. -/
theorem play_file_failure_spec_witness :
    (∃ e, (play_file fsysFail 9 pSeg "x.mp3").1 = .error e)
    ∧ (play_file fsysFail 9 pSeg "x.mp3").2 = { pSeg with sink := SinkM.fresh } :=
  play_file_failure_spec fsysFail 9 pSeg "x.mp3" (Or.inl rfl)

-- ===========================================================================
-- Pipeline lemmas shared by C5, C6, C9
-- ===========================================================================

/-- Overwriting one slot of a constant list with the same value is the
identity. -/
theorem set_replicate_self {α : Type} (a : α) :
    ∀ (n i : ℕ), (List.replicate n a).set i a = List.replicate n a := by
  intro n
  induction n with
  | zero => intro i; rfl
  | succ m ih =>
    intro i
    cases i with
    | zero => simp [List.replicate_succ]
    | succ j => simp [List.replicate_succ, ih]

/-- A pipeline whose chains are all empty copies passes every sample through
unchanged, for any in-range cursor. -/
theorem eqRun_all_empty (sr c : ℕ) (hc : 0 < c) :
    ∀ (input : List ℚ) (cur : ℕ), cur < c →
      eqRun ⟨sr, c, List.replicate c ([] : List BiquadFilter), cur⟩ input =
        .ok input := by
  intro input
  induction input with
  | nil => intro cur _; rfl
  | cons x rest ih =>
    intro cur hcur
    have hget : (List.replicate c ([] : List BiquadFilter))[cur]? = some [] := by
      simp [List.getElem?_replicate, hcur]
    have hc0 : c ≠ 0 := by omega
    have hstep : EqSource.step ⟨sr, c, List.replicate c [], cur⟩ x =
        .ok (x, ⟨sr, c, List.replicate c [], (cur + 1) % c⟩) := by
      simp [EqSource.step, hget, hc0, processChain, set_replicate_self]
    simp only [eqRun, hstep]
    rw [ih ((cur + 1) % c) (Nat.mod_lt _ hc)]

-- ===========================================================================
-- C5: Pass-through identity
-- ===========================================================================

/-- C5: with the EQ disabled, or enabled with every band's gain exactly 0,
the pipeline builds no filters and (for any source with at least one
channel) outputs the input stream sample-for-sample. -/
theorem eq_passthrough (ops : DspOps) (sr c : ℕ) (settings : EqSettings)
    (input : List ℚ)
    (hpass : settings.enabled = false ∨ ∀ b ∈ settings.bands, b.gain = 0)
    (hc : 0 < c) :
    baseFilters ops sr settings = []
    ∧ eqRun (EqSource.new ops sr c settings) input = .ok input := by
  have hbase : baseFilters ops sr settings = [] := by
    rcases hpass with h | h
    · simp [baseFilters, h]
    · simp [baseFilters]
      intro _ b hb
      exact h b hb
  refine ⟨hbase, ?_⟩
  have h0 := eqRun_all_empty sr c hc input 0 hc
  simpa [EqSource.new, hbase] using h0

/-- Witness for `eq_passthrough`: the default (disabled) settings on a stereo
source pass three samples through unchanged. -/
theorem eq_passthrough_witness :
    baseFilters opsId 44100 EqSettings.default = []
    ∧ eqRun (EqSource.new opsId 44100 2 EqSettings.default) [1, 2, 3] =
        .ok [1, 2, 3] :=
  eq_passthrough opsId 44100 2 EqSettings.default [1, 2, 3] (Or.inl rfl)
    (by decide)

/-- Routing trace from an arbitrary in-range cursor: each consumed sample
goes to channel `(cursor + i) % c`. -/
theorem eqTrace_shift (c : ℕ) (hc : 0 < c) :
    ∀ (input : List ℚ) (s : EqSource), s.channels = c →
      s.filter_states.length = c → s.current_channel < c →
      eqTrace s input =
        (List.range input.length).map (fun i => (s.current_channel + i) % c) := by
  intro input
  induction input with
  | nil => intro s _ _ _; rfl
  | cons x rest ih =>
    intro s hch hlen hcur
    cases hget : s.filter_states[s.current_channel]? with
    | none =>
      exfalso
      have := List.getElem?_eq_getElem (by omega :
        s.current_channel < s.filter_states.length)
      rw [hget] at this
      exact Option.noConfusion this
    | some chain =>
      have hc0 : s.channels ≠ 0 := by omega
      have hstep : s.step x = .ok ((processChain chain x).1,
          { s with
            filter_states :=
              s.filter_states.set s.current_channel (processChain chain x).2
            current_channel := (s.current_channel + 1) % s.channels }) := by
        simp [EqSource.step, hget, hc0]
      simp only [eqTrace, hstep]
      rw [ih _ (by simpa using hch) (by simpa using hlen)
        (by simp [hch]; exact Nat.mod_lt _ hc)]
      rw [List.length_cons, List.range_succ_eq_map, List.map_cons, List.map_map]
      congr 1
      · simp [Nat.mod_eq_of_lt hcur]
      · apply List.map_congr_left
        intro i _
        simp only [hch, Function.comp_apply, Nat.succ_eq_add_one]
        rw [Nat.mod_add_mod]
        congr 1
        omega

-- ===========================================================================
-- C6: Per-channel filter independence and routing
-- ===========================================================================

/-- C6: the pipeline is built with `c` chains of identical coefficients
(one replica of `base_filters` per channel) whose recurrence state is zero;
the i-th consumed sample is routed to chain `i mod c`; and each step
advances the cursor by one (mod `c`) and leaves every other channel's chain
untouched. -/
theorem eq_channel_routing (ops : DspOps) (sr c : ℕ) (settings : EqSettings)
    (input : List ℚ) (hc : 0 < c) :
    (EqSource.new ops sr c settings).filter_states =
      List.replicate c (baseFilters ops sr settings)
    ∧ (∀ f ∈ baseFilters ops sr settings,
        f.x1 = 0 ∧ f.x2 = 0 ∧ f.y1 = 0 ∧ f.y2 = 0)
    ∧ eqTrace (EqSource.new ops sr c settings) input =
        (List.range input.length).map (fun i => i % c)
    ∧ (∀ (s : EqSource) (x y : ℚ) (s' : EqSource), s.step x = .ok (y, s') →
        s'.current_channel = (s.current_channel + 1) % s.channels
        ∧ ∀ j, j ≠ s.current_channel →
            s'.filter_states[j]? = s.filter_states[j]?) := by
  refine ⟨rfl, ?_, ?_, ?_⟩
  · intro f hf
    simp only [baseFilters] at hf
    split at hf
    · obtain ⟨b, _, rfl⟩ := List.mem_map.mp hf
      exact ⟨rfl, rfl, rfl, rfl⟩
    · simp at hf
  · have h := eqTrace_shift c hc input (EqSource.new ops sr c settings)
      rfl (by simp [EqSource.new]) (by simpa [EqSource.new] using hc)
    simpa [EqSource.new] using h
  · intro s x y s' hstep
    unfold EqSource.step at hstep
    cases hget : s.filter_states[s.current_channel]? with
    | none => rw [hget] at hstep; exact absurd hstep (by simp)
    | some chain =>
      rw [hget] at hstep
      by_cases hc0 : s.channels = 0
      · simp [hc0] at hstep
      · simp only [hc0, if_false, Except.ok.injEq, Prod.mk.injEq] at hstep
        obtain ⟨_, hs⟩ := hstep
        subst hs
        refine ⟨rfl, ?_⟩
        intro j hj
        simp [List.getElem?_set_ne (by omega : s.current_channel ≠ j)]

/-- Witness for `eq_channel_routing`: a stereo pipeline routes three samples
to channels 0, 1, 0. -/
theorem eq_channel_routing_witness :
    eqTrace (EqSource.new opsId 44100 2 EqSettings.default) [1, 2, 3] =
      [0, 1, 0] := by
  have h := eq_channel_routing opsId 44100 2 EqSettings.default [1, 2, 3]
    (by decide)
  rw [h.2.2.1]
  decide

-- ===========================================================================
-- C9: Implicit channel-count precondition (corrected)
-- ===========================================================================

/-- C9 counterexample: on a source reporting 0 channels, `next()` does not
reach the modulo by zero — it fails first at the chain indexing, because
`filter_states` is empty. -/
theorem eq_zero_channels_fault :
    (EqSource.new opsId 44100 0 EqSettings.default).step 1 =
      .error Fault.idxOOB
    ∧ (EqSource.new opsId 44100 0 EqSettings.default).step 1 ≠
      .error Fault.remZero := by
  refine ⟨rfl, fun hcontra => ?_⟩
  exact Fault.noConfusion (Except.error.inj
    (show (Except.error Fault.idxOOB : Except Fault (ℚ × EqSource)) =
      .error Fault.remZero from hcontra))

/-- C9 amended: for sources with channel count ≥ 1 the invariant
`current_channel < channel_count = length of filter_states` holds after
construction and is preserved by every `next()`, so neither the chain
indexing nor the modulo can fail; for a 0-channel source `next()` on a
pending sample fails (at the chain indexing, which precedes the modulo by
zero in the code). -/
theorem eq_channel_precondition (ops : DspOps) (sr c : ℕ)
    (settings : EqSettings) (hc : 0 < c) :
    (EqSource.new ops sr c settings).inv
    ∧ (∀ (s : EqSource) (x : ℚ), s.inv →
        ∃ y s', s.step x = .ok (y, s') ∧ s'.inv)
    ∧ (∀ (s : EqSource) (x : ℚ), s.channels = 0 → s.filter_states = [] →
        s.step x = .error Fault.idxOOB) := by
  refine ⟨⟨by simp [EqSource.new], by simpa [EqSource.new] using hc⟩, ?_, ?_⟩
  · intro s x hinv
    obtain ⟨hlen, hcur⟩ := hinv
    cases hget : s.filter_states[s.current_channel]? with
    | none =>
      exfalso
      have := List.getElem?_eq_getElem (by omega :
        s.current_channel < s.filter_states.length)
      rw [hget] at this
      exact Option.noConfusion this
    | some chain =>
      have hc0 : s.channels ≠ 0 := by omega
      refine ⟨(processChain chain x).1,
        { s with
          filter_states :=
            s.filter_states.set s.current_channel (processChain chain x).2
          current_channel := (s.current_channel + 1) % s.channels }, ?_, ?_, ?_⟩
      · simp [EqSource.step, hget, hc0]
      · simp [hlen]
      · simp [Nat.mod_lt _ (by omega : 0 < s.channels)]
  · intro s x hch hfs
    simp [EqSource.step, hfs]

/-- Witness for `eq_channel_precondition` on a stereo pipeline. -/
theorem eq_channel_precondition_witness :
    (EqSource.new opsId 44100 2 EqSettings.default).inv
    ∧ ∃ y s',
        (EqSource.new opsId 44100 2 EqSettings.default).step 1 = .ok (y, s')
        ∧ s'.inv := by
  have h := eq_channel_precondition opsId 44100 2 EqSettings.default
    (by decide)
  exact ⟨h.1, h.2.1 _ 1 h.1⟩
